import Mathlib

/-!
Verification of the in-memory conversation session store of the Spanish
Learning MCP server (src/routes/conversation.ts), together with the
pieces of src/lib/mcp-module.ts it calls.

Shallow embedding conventions:
* The JavaScript `Map` backing `conversationStore` is modelled as an
  insertion-ordered association list `Store := List (String × Conversation)`.
* JavaScript millisecond timestamps are modelled as `Int`.  A `createdAt`
  value that `new Date(x).getTime()` would turn into `NaN` (missing or
  unparsable) is modelled as `none : Option Int`; every comparison with
  `NaN` is false in JavaScript, which the `Option` match reproduces.
* The two external collaborators (`getContext`, the Claude completion call)
  are black boxes, passed in as an `McpEnv` of pure functions.
* Handlers that can answer 404/403 return `Except AppError _`; `AppError`
  mirrors the middleware class of the same name (message, statusCode).
-/

/-- A conversation message, as pushed by the route handlers:
`\x7brole, content, timestamp\x7d` where the handlers only ever use the
roles "system" and "user". -/
structure Message where
  role : String
  content : String
  timestamp : Int
deriving Repr, DecidableEq

/-- A stored conversation record, exactly the object literal stored by the
`/start` handler (src/routes/conversation.ts:257-274).  `userId` is
`req.user?.id`, hence optional; `createdAt` is `Option Int` (see module
comment); `context` is the formatted context string obtained from
`mcpInstance.getContext` at creation time. -/
structure Conversation where
  id : String
  topic : String
  difficultyLevel : String
  participantCount : Nat
  includeSlang : Bool
  focusAreas : List String
  userId : Option String
  createdAt : Option Int
  messages : List Message
  context : String
deriving Repr, DecidableEq

/-- The in-memory `conversationStore` (a JavaScript `Map`), modelled as an
insertion-ordered association list. -/
abbrev Store : Type := List (String × Conversation)

/-- `conversationStore.has(id)`. -/
def storeHas (s : Store) (id : String) : Bool :=
  (List.any s (fun e => e.1 == id))

/-- `conversationStore.get(id)`: `none` models `undefined`. -/
def storeGet (s : Store) (id : String) : Option Conversation :=
  (List.find? (fun e => e.1 == id) s).map (fun e => e.2)

/-- `conversationStore.set(id, c)`: replaces the value of an existing key
in place (JavaScript `Map.set` keeps the key's insertion position),
otherwise appends a fresh entry at the end. -/
def storeSet : Store → String → Conversation → Store
  | [], id, c => [(id, c)]
  | e :: rest, id, c =>
      if e.1 == id then (id, c) :: rest else e :: storeSet rest id c

/-- `conversationStore.delete(id)`: removes the entry for `id` if present
and returns whether it existed (a JavaScript `Map` holds at most one entry
per key, so removing the first match is exact). -/
def storeDelete : Store → String → Store × Bool
  | [], _ => ([], false)
  | e :: rest, id =>
      if e.1 == id then (rest, true)
      else
        let r := storeDelete rest id
        (e :: r.1, r.2)

/-- `conversationStore.size`. -/
def storeSize (s : Store) : Nat := List.length s

/-- The values of the store in insertion order, `Array.from(conversationStore.values())`. -/
def storeValues (s : Store) : List Conversation := List.map (fun e => e.2) s

/-- `CONVERSATION_MAX_AGE_MS = 7 * 24 * 60 * 60 * 1000` (7 days). -/
def CONVERSATION_MAX_AGE_MS : Int := 7 * 24 * 60 * 60 * 1000

/-- The sweep's per-entry eviction test (src/routes/conversation.ts:647-650):
`age = now - new Date(conversation.createdAt).getTime()`, evict when
`age > CONVERSATION_MAX_AGE_MS`.  When `createdAt` is missing or
unparsable, `getTime()` is `NaN`, `NaN > max` is false, and the entry is
kept; the `none` branch models that. -/
def expiredAt (now : Int) (c : Conversation) : Bool :=
  match c.createdAt with
  | some t => decide (now - t > CONVERSATION_MAX_AGE_MS)
  | none => false

/-- `cleanupOldConversations()` (src/routes/conversation.ts:639-669):
iterates every entry of the store, deletes the entries whose age strictly
exceeds `CONVERSATION_MAX_AGE_MS`, counts the deletions, and returns the
count.  The `now` value is `mockNow || new Date().getTime()`, passed here
as a parameter (the injectable clock).  Per-entry failures are confined by
the inner try/catch, which the total `expiredAt` match models; the result
is the pair (store after the sweep, number of deletions). -/
def cleanupOldConversations (now : Int) : Store → Store × Nat
  | [] => ([], 0)
  | e :: rest =>
      let r := cleanupOldConversations now rest
      if expiredAt now e.2 then (r.1, r.2 + 1) else (e :: r.1, r.2)

/-- Module-level mutable state relevant to shutdown: the store and whether
the hourly `setInterval(cleanupOldConversations, ...)` timer is still
scheduled. -/
structure ServerState where
  store : Store
  timerActive : Bool
deriving Repr, DecidableEq

/-- `cleanupConversationResources()` (src/routes/conversation.ts:688-712):
cancels the cleanup interval (`clearInterval` is a no-op on an already
cancelled handle) and clears the store when it holds any conversations
(`conversationStore.clear()` under `if (conversationCount > 0)`). -/
def cleanupConversationResources (st : ServerState) : ServerState :=
  let conversationCount := storeSize st.store
  { store := if conversationCount > 0 then ([] : List (String × Conversation)) else st.store
    timerActive := false }

-- ### Sweep lemmas

theorem cleanup_fst_eq_filter (now : Int) (s : Store) :
    (cleanupOldConversations now s).1
      = List.filter (fun e => !expiredAt now e.2) s := by
  induction s with
  | nil => rfl
  | cons e rest ih =>
      simp only [cleanupOldConversations, List.filter]
      cases h : expiredAt now e.2 <;> simp [h, ih]

theorem cleanup_snd_eq_countP (now : Int) (s : Store) :
    (cleanupOldConversations now s).2
      = List.countP (fun e => expiredAt now e.2) s := by
  induction s with
  | nil => rfl
  | cons e rest ih =>
      simp only [cleanupOldConversations, List.countP_cons]
      cases h : expiredAt now e.2 <;> simp [h, ih]

/-- C1: the sweep keeps exactly the sessions whose age is at most
`CONVERSATION_MAX_AGE_MS`.  For any entry of the store with a parsable
`createdAt = some t`, membership in the post-sweep store is equivalent to
`now - t ≤ CONVERSATION_MAX_AGE_MS`: age equal to the maximum is kept,
any strictly greater age is deleted. -/
theorem cleanup_boundary_exact (now : Int) (s : Store) (id : String)
    (c : Conversation) (t : Int) (hmem : (id, c) ∈ s)
    (ht : c.createdAt = some t) :
    (id, c) ∈ (cleanupOldConversations now s).1 ↔
      now - t ≤ CONVERSATION_MAX_AGE_MS := by
  rw [cleanup_fst_eq_filter]
  constructor
  · intro hin
    have hp := (List.mem_filter.mp hin).2
    simp only [expiredAt, ht, Bool.not_eq_true'] at hp
    simpa using of_decide_eq_false hp
  · intro hle
    refine List.mem_filter.mpr ⟨hmem, ?_⟩
    simp only [expiredAt, ht, Bool.not_eq_true']
    exact decide_eq_false (by omega)

/-- Witness for C1 at the boundary: with `now = CONVERSATION_MAX_AGE_MS`,
a session created at time 0 has age exactly `maxAge` and survives the
sweep, while a session created at time -1 has age `maxAge + 1` and is
removed. -/
theorem cleanup_boundary_exact_witness :
    (("a", { id := "a", topic := "food", difficultyLevel := "beginner",
             participantCount := 1, includeSlang := false, focusAreas := [],
             userId := some "u1", createdAt := some 0, messages := [],
             context := "" }) ∈
      (cleanupOldConversations 604800000
        [("a", { id := "a", topic := "food", difficultyLevel := "beginner",
                 participantCount := 1, includeSlang := false, focusAreas := [],
                 userId := some "u1", createdAt := some 0, messages := [],
                 context := "" })]).1) ∧
    ¬ (("b", { id := "b", topic := "food", difficultyLevel := "beginner",
               participantCount := 1, includeSlang := false, focusAreas := [],
               userId := some "u1", createdAt := some (-1), messages := [],
               context := "" }) ∈
      (cleanupOldConversations 604800000
        [("b", { id := "b", topic := "food", difficultyLevel := "beginner",
                 participantCount := 1, includeSlang := false, focusAreas := [],
                 userId := some "u1", createdAt := some (-1), messages := [],
                 context := "" })]).1) := by
  constructor
  · exact (cleanup_boundary_exact 604800000 _ "a" _ 0
      (List.mem_singleton.mpr rfl) rfl).mpr (by decide)
  · intro hmem
    have := (cleanup_boundary_exact 604800000 _ "b" _ (-1)
      (List.mem_singleton.mpr rfl) rfl).mp hmem
    exact absurd this (by decide)

/-- C2: resilience of the sweep.  One sweep call is a total function (the
inner try/catch confines per-entry failures, the outer one the whole
sweep): it removes no entry whose `createdAt` is missing or unparsable
(modelled by `none`), returns exactly the number of entries it deleted, a
sweep of the empty store returns 0, and the returned count does not change
when malformed entries are added to the store. -/
theorem cleanup_resilient (now : Int) (s mal : Store)
    (hmal : ∀ e ∈ mal, (Prod.snd e).createdAt = none) :
    (cleanupOldConversations now ([] : Store)).1 = ([] : List (String × Conversation)) ∧
    (cleanupOldConversations now ([] : Store)).2 = 0 ∧
    (∀ e ∈ s, (Prod.snd e).createdAt = none →
      e ∈ (cleanupOldConversations now s).1) ∧
    (cleanupOldConversations now s).2
      = List.countP (fun e => expiredAt now e.2) s ∧
    (cleanupOldConversations now (s ++ mal)).2
      = (cleanupOldConversations now s).2 := by
  refine ⟨rfl, rfl, ?_, cleanup_snd_eq_countP now s, ?_⟩
  · intro e he hnone
    rw [cleanup_fst_eq_filter]
    refine List.mem_filter.mpr ⟨he, ?_⟩
    simp [expiredAt, hnone]
  · rw [cleanup_snd_eq_countP, cleanup_snd_eq_countP, List.countP_append]
    have : List.countP (fun e => expiredAt now e.2) mal = 0 := by
      rw [List.countP_eq_zero]
      intro e he
      simp [expiredAt, hmal e he]
    omega

/-- Witness for C2: a store holding one malformed session (unparsable
`createdAt`) and one expired session; the sweep keeps the malformed one
and reports one removal, and appending the malformed entry to the
single-entry expired store does not change the count. -/
theorem cleanup_resilient_witness :
    (("m", { id := "m", topic := "food", difficultyLevel := "beginner",
             participantCount := 1, includeSlang := false, focusAreas := [],
             userId := some "u1", createdAt := none, messages := [],
             context := "" }) ∈
      (cleanupOldConversations 604800001
        [("m", { id := "m", topic := "food", difficultyLevel := "beginner",
                 participantCount := 1, includeSlang := false, focusAreas := [],
                 userId := some "u1", createdAt := none, messages := [],
                 context := "" }),
         ("e", { id := "e", topic := "food", difficultyLevel := "beginner",
                 participantCount := 1, includeSlang := false, focusAreas := [],
                 userId := some "u1", createdAt := some 0, messages := [],
                 context := "" })]).1) ∧
    (cleanupOldConversations 604800001
        [("m", { id := "m", topic := "food", difficultyLevel := "beginner",
                 participantCount := 1, includeSlang := false, focusAreas := [],
                 userId := some "u1", createdAt := none, messages := [],
                 context := "" }),
         ("e", { id := "e", topic := "food", difficultyLevel := "beginner",
                 participantCount := 1, includeSlang := false, focusAreas := [],
                 userId := some "u1", createdAt := some 0, messages := [],
                 context := "" })]).2 = 1 := by
  have h := cleanup_resilient 604800001
    [("m", { id := "m", topic := "food", difficultyLevel := "beginner",
             participantCount := 1, includeSlang := false, focusAreas := [],
             userId := some "u1", createdAt := none, messages := [],
             context := "" }),
     ("e", { id := "e", topic := "food", difficultyLevel := "beginner",
             participantCount := 1, includeSlang := false, focusAreas := [],
             userId := some "u1", createdAt := some 0, messages := [],
             context := "" })]
    ([] : Store) (by intro e he; simp at he)
  refine ⟨h.2.2.1 _ (by simp) rfl, ?_⟩
  rw [h.2.2.2.1]
  decide

/-- C3: shutdown.  For every server state — in particular after any number
M ≥ 0 of sessions have been inserted — one `cleanupConversationResources`
call cancels the sweep timer and leaves the store with size 0, and the
call is idempotent (a repeated call is total, raises nothing, and leaves
the state unchanged, so the size stays 0). -/
theorem cleanupConversationResources_spec (st : ServerState) :
    (cleanupConversationResources st).store = ([] : List (String × Conversation)) ∧
    storeSize (cleanupConversationResources st).store = 0 ∧
    (cleanupConversationResources st).timerActive = false ∧
    cleanupConversationResources (cleanupConversationResources st)
      = cleanupConversationResources st := by
  have hstore : (cleanupConversationResources st).store
      = ([] : List (String × Conversation)) := by
    show (if storeSize st.store > 0 then ([] : List (String × Conversation))
          else st.store) = ([] : List (String × Conversation))
    by_cases h : storeSize st.store > 0
    · simp [h]
    · have : st.store = ([] : List (String × Conversation)) := by
        have hlen : List.length st.store = 0 := by
          simpa [storeSize] using Nat.eq_zero_of_not_pos h
        exact List.length_eq_zero.mp hlen
      simp [h, this]
  refine ⟨hstore, by simp [hstore, storeSize], rfl, ?_⟩
  show ({ store := _, timerActive := false } : ServerState) = _
  simp [cleanupConversationResources, hstore, storeSize]

-- ### Route-handler layer

/-- The `AppError` of the error middleware: a message and an HTTP status
code.  Route handlers throw it; `catchAsync` turns it into the response,
modelled here as the `Except.error` branch of each handler. -/
structure AppError where
  message : String
  statusCode : Nat
deriving Repr, DecidableEq

/-- The 404 thrown for an unknown conversation id. -/
def notFoundError : AppError := { message := "Conversation not found", statusCode := 404 }

/-- The 403 thrown on an ownership mismatch. -/
def accessError : AppError :=
  { message := "You do not have access to this conversation", statusCode := 403 }

/-- The authenticated caller: `req.user?.id` (optional) and the tier after
the handlers' defaulting, `req.user?.tier || 'free'`. -/
structure User where
  id : Option String
  tier : String
deriving Repr, DecidableEq

/-- The fields of `ContextOptions` the conversation routes set
(src/lib/mcp-module.ts); `contextType` and `accessTier` are the enum
string values. -/
structure ContextOptions where
  contextType : String
  maxItems : Nat
  includeExamples : Bool
  accessTier : String
  userId : Option String
  categories : List String
  difficultyLevel : String
deriving Repr, DecidableEq

/-- The two external collaborators, as pure black boxes: `getContext`
is `SpanishMcp.getContext` (Context Provider) and `complete` is the
Claude call of `queryWithContext` (system prompt, user message →
response text). -/
structure McpEnv where
  getContext : ContextOptions → String
  complete : String → String → String

/-- The system prompt built inside `queryWithContext`
(src/lib/mcp-module.ts:682) around the context it just fetched. -/
def mcpSystemPrompt (context : String) : String :=
  "You are a helpful Spanish language tutor. Use the following Spanish language reference materials to help answer the user's question:\n\n" ++ context

/-- `queryWithContext(userMessage, contextOptions)`
(src/lib/mcp-module.ts:669-681): fetches the context again via
`this.getContext(contextOptions)`, embeds it in the system prompt and
calls the model.  The result pair is (response text, the context string
that was fetched and used) — the second component makes the internal
context fetch observable to the theorems. -/
def queryWithContext (env : McpEnv) (userMessage : String)
    (contextOptions : ContextOptions) : String × String :=
  let context := env.getContext contextOptions
  (env.complete (mcpSystemPrompt context) userMessage, context)

/-- `maxParticipants[userTier]` of the `/start` handler. -/
def maxParticipantsFor (tier : String) : Nat :=
  if tier == "premium" then 3 else if tier == "basic" then 2 else 1

/-- `maxContextSize[userTier]` of the `/start` handler. -/
def maxContextSizeFor (tier : String) : Nat :=
  if tier == "premium" then 50 else if tier == "basic" then 20 else 5

/-- `maxHistoryMessages[userTier]` of the `/continue` handler. -/
def maxHistoryMessagesFor (tier : String) : Nat :=
  if tier == "premium" then 10 else if tier == "basic" then 5 else 2

/-- The conversation id generated by the `/start` handler
(src/routes/conversation.ts:254): the template literal
conv_ + Date.now() + _ + Math.random().toString(36).substr(2, 9),
with the millisecond clock value and the random suffix passed in as
parameters.  `Date.now()` is non-negative, so its decimal rendering is
`Nat.repr`. -/
def mkConversationId (nowMs : Nat) (rand : String) : String :=
  "conv_" ++ Nat.repr nowMs ++ "_" ++ rand

/-- The validated body of POST `/start`. -/
structure StartRequest where
  topic : String
  difficultyLevel : String
  participantCount : Nat
  includeSlang : Bool
  focusAreas : List String
  contextSize : Nat
deriving Repr, DecidableEq

/-- The `ContextOptions` object the `/start` handler builds
(src/routes/conversation.ts:220-232). -/
def startOptions (user : User) (req : StartRequest) (actualContextSize : Nat) :
    ContextOptions :=
  { contextType := "conversation"
    maxItems := actualContextSize
    includeExamples := true
    accessTier := user.tier
    userId := user.id
    categories := req.focusAreas
    difficultyLevel := req.difficultyLevel }

/-- The initial-conversation prompt template of the `/start` handler
(src/routes/conversation.ts:239-248). -/
def startPrompt (user : User) (req : StartRequest) (actualParticipants : Nat) : String :=
  "\nYou are having a Spanish conversation "
    ++ (if actualParticipants > 1 then "with multiple people" else "")
    ++ " about \"" ++ req.topic ++ "\" at a " ++ req.difficultyLevel ++ " level.\n"
    ++ (if req.includeSlang && user.tier == "premium" then
          "Include some common Spanish slang and colloquial expressions." else "")
    ++ "\n"
    ++ (if req.focusAreas.length > 0 then
          "Try to incorporate these language aspects: "
            ++ String.intercalate ", " req.focusAreas ++ "." else "")
    ++ "\n\nStart the conversation with a greeting and a question or statement about the topic.\nIf there are multiple participants, include their contributions too.\n\nReturn only the conversation itself, making it natural and educational.\n"

/-- The conversation record stored by the `/start` handler
(src/routes/conversation.ts:257-274): one initial system message holding
the generated opening, `createdAt = new Date()` (always valid at
creation), and the formatted context string fetched at creation. -/
def newConversation (conversationId : String) (req : StartRequest)
    (actualParticipants : Nat) (uid : Option String) (now : Int)
    (initialConversation : String) (context : String) : Conversation :=
  { id := conversationId
    topic := req.topic
    difficultyLevel := req.difficultyLevel
    participantCount := actualParticipants
    includeSlang := req.includeSlang
    focusAreas := req.focusAreas
    userId := uid
    createdAt := some now
    messages := [{ role := "system", content := initialConversation, timestamp := now }]
    context := context }

/-- The response body of POST `/start` (the fields the route serializes). -/
structure StartResponse where
  conversationId : String
  topic : String
  difficultyLevel : String
  initialMessage : String
  participantCount : Nat
deriving Repr, DecidableEq

/-- POST `/start` (src/routes/conversation.ts:175-297): tier gates on the
difficulty level, tier caps on participants and context size, context
fetch, opening generation, id generation, store insertion.  `now` is the
creation instant, `nowMs`/`rand` the id generator's inputs. -/
def startConversation (env : McpEnv) (now : Int) (nowMs : Nat) (rand : String)
    (user : User) (req : StartRequest) (store : Store) :
    Except AppError (StartResponse × Store) :=
  if user.tier == "free" && req.difficultyLevel != "beginner" then
    Except.error { message := "Free tier users can only access beginner-level conversations", statusCode := 403 }
  else if user.tier == "basic" && req.difficultyLevel == "advanced" then
    Except.error { message := "Basic tier users can only access beginner and intermediate-level conversations", statusCode := 403 }
  else
    let actualParticipants := min req.participantCount (maxParticipantsFor user.tier)
    let actualContextSize := min req.contextSize (maxContextSizeFor user.tier)
    let options := startOptions user req actualContextSize
    let context := env.getContext options
    let initialConversation := (queryWithContext env (startPrompt user req actualParticipants) options).1
    let conversationId := mkConversationId nowMs rand
    let conv := newConversation conversationId req actualParticipants user.id now
      initialConversation context
    Except.ok
      ({ conversationId := conversationId
         topic := req.topic
         difficultyLevel := req.difficultyLevel
         initialMessage := initialConversation
         participantCount := actualParticipants },
       storeSet store conversationId conv)

/-- The validated body of POST `/continue`. -/
structure ContinueRequest where
  conversationId : String
  userMessage : String
  includeCorrections : Bool
  includeAlternatives : Bool
deriving Repr, DecidableEq

/-- `conversation.messages.push(message)`: appends one message at the end. -/
def appendMessage (c : Conversation) (m : Message) : Conversation :=
  { c with messages := c.messages ++ [m] }

/-- The tier-dependent prompt extras of the `/continue` handler
(src/routes/conversation.ts:361-375). -/
def promptExtrasFor (tier : String) (includeCorrections includeAlternatives : Bool) :
    String :=
  if tier == "premium" then
    (if includeCorrections then
        "If there are any grammar or vocabulary errors in my message, gently correct them. "
      else "")
      ++ (if includeAlternatives then
            "Suggest alternative ways I could have expressed the same idea. "
          else "")
  else if tier == "basic" && includeCorrections then
    "If there are any major grammar errors in my message, briefly correct them. "
  else ""

/-- The `ContextOptions` object the `/continue` handler builds
(src/routes/conversation.ts:378-390). -/
def continueOptions (tier : String) (uid : Option String) (c : Conversation) :
    ContextOptions :=
  { contextType := "conversation"
    maxItems := if tier == "premium" then 20 else if tier == "basic" then 10 else 5
    includeExamples := true
    accessTier := tier
    userId := uid
    categories := c.focusAreas
    difficultyLevel := c.difficultyLevel }

/-- `messages.slice(-n)`: the last `n` elements. -/
def lastN (n : Nat) (l : List Message) : List Message :=
  List.drop (List.length l - n) l

/-- One line of the history block: `User: ...` or `System: ...`
(src/routes/conversation.ts:401). -/
def formatHistoryMessage (m : Message) : String :=
  (if m.role == "user" then "User" else "System") ++ ": " ++ m.content

/-- `messageHistory` of the `/continue` handler
(src/routes/conversation.ts:399-402): the last
`maxHistoryMessages[userTier]` messages, formatted and joined. -/
def messageHistoryFor (tier : String) (msgs : List Message) : String :=
  String.intercalate "\n\n" (List.map formatHistoryMessage (lastN (maxHistoryMessagesFor tier) msgs))

/-- The continuation prompt template of the `/continue` handler
(src/routes/conversation.ts:406-417). -/
def continuePrompt (c : Conversation) (history promptExtras : String) : String :=
  "\nContinue this Spanish conversation about \"" ++ c.topic ++ "\" at a "
    ++ c.difficultyLevel ++ " level.\n\nPrevious Messages:\n" ++ history
    ++ "\n\nRespond to the user's last message in a natural way. " ++ promptExtras
    ++ "\n"
    ++ (if c.includeSlang then
          "Include some common Spanish slang or colloquial expressions if appropriate. "
        else "")
    ++ "\n"
    ++ (if c.focusAreas.length > 0 then
          "Try to incorporate these language aspects: "
            ++ String.intercalate ", " c.focusAreas ++ ". "
        else "")
    ++ "\n\nReturn only the conversation continuation.\n"

/-- The response body of POST `/continue`. -/
structure ContinueResponse where
  conversationId : String
  message : String
  messageCount : Nat
deriving Repr, DecidableEq

/-- The full outcome of one `/continue` call: the HTTP-level result, the
store afterwards, and — when the Claude query ran — the context string
`queryWithContext` fetched from the Context Provider for this turn
(`none` on the 404/403 paths, which never reach the query). -/
structure ContinueOutcome where
  result : Except AppError ContinueResponse
  store : Store
  contextUsed : Option String
deriving Repr

/-- POST `/continue` (src/routes/conversation.ts:327-448): 404 when the id
is absent, 403 when the caller does not own the conversation; otherwise
pushes the user message, rebuilds `ContextOptions` from the caller's tier
and the stored conversation, queries the model through `queryWithContext`
(which fetches the context anew), pushes the response message, and writes
the conversation back with `conversationStore.set`. -/
def continueConversation (env : McpEnv) (now : Int) (user : User)
    (req : ContinueRequest) (store : Store) : ContinueOutcome :=
  match storeGet store req.conversationId with
  | none => { result := Except.error notFoundError, store := store, contextUsed := none }
  | some conversation =>
      if conversation.userId != user.id then
        { result := Except.error accessError, store := store, contextUsed := none }
      else
        let conv1 := appendMessage conversation
          { role := "user", content := req.userMessage, timestamp := now }
        let promptExtras := promptExtrasFor user.tier req.includeCorrections
          req.includeAlternatives
        let options := continueOptions user.tier user.id conversation
        let history := messageHistoryFor user.tier conv1.messages
        let prompt := continuePrompt conversation history promptExtras
        let q := queryWithContext env prompt options
        let conv2 := appendMessage conv1
          { role := "system", content := q.1, timestamp := now }
        { result := Except.ok
            { conversationId := req.conversationId
              message := q.1
              messageCount := List.length conv2.messages }
          store := storeSet store req.conversationId conv2
          contextUsed := some q.2 }

/-- The projection of a conversation serialized by GET `/:id`
(src/routes/conversation.ts:497-508): every stored field except `userId`
and `context`, plus the message count. -/
structure ConversationView where
  id : String
  topic : String
  difficultyLevel : String
  participantCount : Nat
  includeSlang : Bool
  focusAreas : List String
  createdAt : Option Int
  messages : List Message
  messageCount : Nat
deriving Repr, DecidableEq

/-- The serialization of GET `/:id`. -/
def viewOf (c : Conversation) : ConversationView :=
  { id := c.id
    topic := c.topic
    difficultyLevel := c.difficultyLevel
    participantCount := c.participantCount
    includeSlang := c.includeSlang
    focusAreas := c.focusAreas
    createdAt := c.createdAt
    messages := c.messages
    messageCount := List.length c.messages }

/-- GET `/:id` (src/routes/conversation.ts:478-514): 404 when absent, 403
when not owned, otherwise the serialized conversation.  The handler only
calls `has` and `get` on the store; the returned second component is the
store afterwards, which makes the absence of mutation explicit. -/
def getConversation (store : Store) (user : User) (conversationId : String) :
    Except AppError ConversationView × Store :=
  match storeGet store conversationId with
  | none => (Except.error notFoundError, store)
  | some conversation =>
      if conversation.userId != user.id then (Except.error accessError, store)
      else (Except.ok (viewOf conversation), store)

/-- The response body of DELETE `/:id`. -/
structure DeleteResponse where
  success : Bool
  message : String
deriving Repr, DecidableEq

/-- DELETE `/:id` (src/routes/conversation.ts:591-617): 404 when absent,
403 when not owned, otherwise `conversationStore.delete(id)` and a
success body. -/
def deleteConversation (store : Store) (user : User) (conversationId : String) :
    Except AppError DeleteResponse × Store :=
  match storeGet store conversationId with
  | none => (Except.error notFoundError, store)
  | some conversation =>
      if conversation.userId != user.id then (Except.error accessError, store)
      else
        (Except.ok { success := true, message := "Conversation deleted successfully" },
         (storeDelete store conversationId).1)

/-- The sort key of the `/history` comparator
`new Date(b.createdAt).getTime() - new Date(a.createdAt).getTime()`;
sessions written by the `/start` handler always carry `some t`, for which
the key is exactly the creation time (the `none` case would be `NaN` in
JavaScript, where the sort order is unspecified; the model uses 0). -/
def createdKeyOf (c : Conversation) : Int :=
  match c.createdAt with
  | some t => t
  | none => 0

/-- Stable descending insertion: the model of `Array.prototype.sort` with
the newest-first comparator of GET `/history` (ECMAScript sort is stable,
so equal keys keep their relative order). -/
def insertByCreatedDesc (c : Conversation) : List Conversation → List Conversation
  | [] => [c]
  | d :: rest =>
      if createdKeyOf d < createdKeyOf c then c :: d :: rest
      else d :: insertByCreatedDesc c rest

/-- The newest-first sort of GET `/history`. -/
def sortByCreatedDesc : List Conversation → List Conversation
  | [] => []
  | c :: rest => insertByCreatedDesc c (sortByCreatedDesc rest)

/-- `userConversations` of GET `/history`
(src/routes/conversation.ts:546-549): all stored conversations whose
`userId` equals the caller's, newest first. -/
def userConversationsFor (store : Store) (uid : Option String) : List Conversation :=
  sortByCreatedDesc (List.filter (fun c => c.userId == uid) (storeValues store))

/-- One summary row of GET `/history` (src/routes/conversation.ts:552-560). -/
structure ConversationSummary where
  id : String
  topic : String
  difficultyLevel : String
  createdAt : Option Int
  messageCount : Nat
deriving Repr, DecidableEq

/-- The summary projection of GET `/history` (the `preview` substring of
the first message is omitted from the model; no claim concerns it). -/
def summarize (c : Conversation) : ConversationSummary :=
  { id := c.id
    topic := c.topic
    difficultyLevel := c.difficultyLevel
    createdAt := c.createdAt
    messageCount := List.length c.messages }

/-- GET `/history` after the filter and sort. -/
def listConversations (store : Store) (uid : Option String) :
    List ConversationSummary :=
  List.map summarize (userConversationsFor store uid)

-- ### Route registration order (C5)

/-- The handler a GET request under `/api/conversation` is dispatched to. -/
inductive GetRoute where
  | topics
  | byId (id : String)
  | historyList
deriving Repr, DecidableEq

/-- The single path segment of a one-segment path: for a path of the form
slash followed by a non-empty segment containing no further slash,
the segment; otherwise `none`.  An Express route parameter `:id` matches
exactly such a segment. -/
def singleSegmentOf (path : String) : Option String :=
  match path.data with
  | ('/' :: rest) =>
      if rest ≠ [] ∧ ¬ List.elem '/' rest then some (String.mk rest) else none
  | _ => none

/-- Express dispatch for the router's GET routes, in registration order
(src/routes/conversation.ts): the literal `/topics` (line 93), then the
parameterized `/:id` (line 478), then the literal `/history` (line 540).
Express tries routes in registration order and uses the first match, so
the `/history` literal is only reachable through the final branch, which
requires `/:id` not to have matched first. -/
def dispatchGet (path : String) : Option GetRoute :=
  if path == "/topics" then some GetRoute.topics
  else
    match singleSegmentOf path with
    | some seg => some (GetRoute.byId seg)
    | none => if path == "/history" then some GetRoute.historyList else none

-- ### Store lemmas

theorem storeGet_eq_none_of_not_has (s : Store) (id : String)
    (h : storeHas s id = false) : storeGet s id = none := by
  induction s with
  | nil => rfl
  | cons e rest ih =>
      simp only [storeHas, List.any_cons, Bool.or_eq_false_iff] at h
      simp only [storeGet, List.find?, h.1]
      exact ih (by simpa [storeHas] using h.2)

theorem storeDelete_not_found (s : Store) (id : String)
    (h : storeHas s id = false) : storeDelete s id = (s, false) := by
  induction s with
  | nil => rfl
  | cons e rest ih =>
      simp only [storeHas, List.any_cons, Bool.or_eq_false_iff] at h
      simp only [storeDelete, h.1, if_false, Bool.false_eq_true]
      rw [ih (by simpa [storeHas] using h.2)]

theorem storeGet_storeSet_self (s : Store) (id : String) (c : Conversation) :
    storeGet (storeSet s id c) id = some c := by
  induction s with
  | nil => simp [storeSet, storeGet, List.find?]
  | cons e rest ih =>
      by_cases h : e.1 = id
      · simp [storeSet, storeGet, List.find?, h]
      · have hb : (e.1 == id) = false := beq_eq_false_iff_ne.mpr h
        simp only [storeSet, hb, Bool.false_eq_true, if_false]
        simpa [storeGet, List.find?, hb] using ih

/-- C6: a missing id is an explicit not-found outcome everywhere, never an
uncaught exception, and it never changes the store.  For an id absent from
the store: GET `/:id` answers the 404 `AppError` and returns the store
unchanged; POST `/continue` answers the same 404 and leaves the store
unchanged; DELETE `/:id` answers the same 404 and leaves the store
unchanged; and the `Map.delete` primitive itself is an idempotent no-op
returning `false` instead of raising. -/
theorem not_found_explicit (env : McpEnv) (now : Int) (store : Store)
    (user : User) (req : ContinueRequest) (id : String)
    (hid : storeHas store id = false)
    (hreq : storeHas store req.conversationId = false) :
    getConversation store user id = (Except.error notFoundError, store) ∧
    (continueConversation env now user req store).result
      = Except.error notFoundError ∧
    (continueConversation env now user req store).store = store ∧
    deleteConversation store user id = (Except.error notFoundError, store) ∧
    storeDelete store id = (store, false) := by
  have hg := storeGet_eq_none_of_not_has store id hid
  have hr := storeGet_eq_none_of_not_has store req.conversationId hreq
  refine ⟨?_, ?_, ?_, ?_, storeDelete_not_found store id hid⟩
  · simp [getConversation, hg]
  · simp [continueConversation, hr]
  · simp [continueConversation, hr]
  · simp [deleteConversation, hg]

/-- Witness for C6 on the empty store with a fresh id. -/
theorem not_found_explicit_witness :
    getConversation ([] : Store) { id := some "u1", tier := "free" } "missing"
        = (Except.error notFoundError, ([] : Store)) ∧
    (continueConversation
        { getContext := fun _ => "", complete := fun _ _ => "" } 0
        { id := some "u1", tier := "free" }
        { conversationId := "missing", userMessage := "Hola",
          includeCorrections := true, includeAlternatives := true }
        ([] : Store)).result = Except.error notFoundError ∧
    (continueConversation
        { getContext := fun _ => "", complete := fun _ _ => "" } 0
        { id := some "u1", tier := "free" }
        { conversationId := "missing", userMessage := "Hola",
          includeCorrections := true, includeAlternatives := true }
        ([] : Store)).store = ([] : Store) ∧
    deleteConversation ([] : Store) { id := some "u1", tier := "free" } "missing"
        = (Except.error notFoundError, ([] : Store)) ∧
    storeDelete ([] : Store) "missing" = (([] : Store), false) := by
  exact not_found_explicit
    { getContext := fun _ => "", complete := fun _ _ => "" } 0 ([] : Store)
    { id := some "u1", tier := "free" }
    { conversationId := "missing", userMessage := "Hola",
      includeCorrections := true, includeAlternatives := true }
    "missing" rfl rfl

/-- C5: because the parameterized GET `/:id` route is registered before
the literal GET `/history` route, a GET request for the history-list path
is dispatched to the by-id handler with `id = "history"`; the literal
`/history` route is unreachable for every path; and whenever no stored
session has the literal id "history", that request produces the 404
not-found outcome instead of the caller's conversation list. -/
theorem history_route_shadowed (store : Store) (user : User)
    (h : storeHas store "history" = false) :
    dispatchGet "/history" = some (GetRoute.byId "history") ∧
    (∀ p : String, dispatchGet p ≠ some GetRoute.historyList) ∧
    getConversation store user "history"
      = (Except.error notFoundError, store) := by
  refine ⟨by decide, ?_, ?_⟩
  · intro p hp
    unfold dispatchGet at hp
    by_cases h1 : p = "/topics"
    · simp [h1] at hp
    · rw [if_neg (by simpa using h1)] at hp
      cases hseg : singleSegmentOf p with
      | some seg => rw [hseg] at hp; simp at hp
      | none =>
          rw [hseg] at hp
          by_cases h2 : p = "/history"
          · subst h2
            have : singleSegmentOf "/history" = some "history" := by decide
            rw [this] at hseg
            exact Option.noConfusion hseg
          · rw [if_neg (by simpa using h2)] at hp
            exact Option.noConfusion hp
  · simp [getConversation, storeGet_eq_none_of_not_has store "history" h]

/-- Witness for C5 on the empty store, with the unreachability conjunct
instantiated at the history path itself. -/
theorem history_route_shadowed_witness :
    dispatchGet "/history" = some (GetRoute.byId "history") ∧
    dispatchGet "/history" ≠ some GetRoute.historyList ∧
    getConversation ([] : Store) { id := some "u1", tier := "premium" } "history"
      = (Except.error notFoundError, ([] : Store)) := by
  have h := history_route_shadowed ([] : Store)
    { id := some "u1", tier := "premium" } rfl
  exact ⟨h.1, h.2.1 "/history", h.2.2⟩

-- ### C4: the context cached at creation versus the continue turns

/-- A concrete environment whose Context Provider answer depends on the
requested `maxItems`, distinguishing the creation-time fetch from a later
continue-turn fetch. -/
def envC4 : McpEnv :=
  { getContext := fun o => Nat.repr o.maxItems, complete := fun _ _ => "resp" }

/-- A session as stored by a premium creation call with context size 50:
its cached context string is the provider's answer for `maxItems = 50`. -/
def convC4 : Conversation :=
  { id := "conv_1_x", topic := "food", difficultyLevel := "beginner",
    participantCount := 1, includeSlang := false, focusAreas := [],
    userId := some "u1", createdAt := some 0,
    messages := [{ role := "system", content := "resp", timestamp := 0 }],
    context := "50" }

def storeC4 : Store := [("conv_1_x", convC4)]

def userC4 : User := { id := some "u1", tier := "free" }

def reqC4 : ContinueRequest :=
  { conversationId := "conv_1_x", userMessage := "Hola",
    includeCorrections := true, includeAlternatives := true }

/-- Counterexample to C4: a continue turn on a session whose cached
context string is "50" fetches "5" from the Context Provider (the free
tier's `maxItems = 5` options) and uses that, so the turn does not read
the string cached at creation. -/
theorem continue_ignores_cached_context :
    (continueConversation envC4 0 userC4 reqC4 storeC4).contextUsed
        = some "5" ∧
    convC4.context = "50" ∧
    (continueConversation envC4 0 userC4 reqC4 storeC4).contextUsed
        ≠ some convC4.context := by
  refine ⟨rfl, rfl, ?_⟩
  intro h
  rw [show (continueConversation envC4 0 userC4 reqC4 storeC4).contextUsed
        = some "5" from rfl] at h
  simp [convC4] at h

/-- C4 as amended: every continue turn on an existing, owned session
computes its context by calling the Context Provider again, with options
rebuilt from the caller's tier and the stored conversation
(`continueOptions`); the string cached in the session at creation is left
unchanged and is never read. -/
theorem continue_regenerates_context (env : McpEnv) (now : Int) (user : User)
    (req : ContinueRequest) (store : Store) (c : Conversation)
    (h1 : storeGet store req.conversationId = some c)
    (h2 : c.userId = user.id) :
    (continueConversation env now user req store).contextUsed
      = some (env.getContext (continueOptions user.tier user.id c)) ∧
    Option.map Conversation.context
        (storeGet (continueConversation env now user req store).store
          req.conversationId)
      = some c.context := by
  have hbne : (c.userId != user.id) = false := by
    simp [h2]
  constructor
  · simp [continueConversation, h1, hbne, queryWithContext]
  · simp only [continueConversation, h1, hbne, Bool.false_eq_true, if_false]
    rw [storeGet_storeSet_self]
    rfl

/-- Witness for the amended C4 at the concrete inputs of the
counterexample. -/
theorem continue_regenerates_context_witness :
    (continueConversation envC4 0 userC4 reqC4 storeC4).contextUsed
      = some (envC4.getContext (continueOptions userC4.tier userC4.id convC4)) ∧
    Option.map Conversation.context
        (storeGet (continueConversation envC4 0 userC4 reqC4 storeC4).store
          reqC4.conversationId)
      = some convC4.context := by
  exact continue_regenerates_context envC4 0 userC4 reqC4 storeC4 convC4 rfl rfl

-- ### C8: initial message and append order

theorem foldl_appendMessage_messages (c : Conversation) (ms : List Message) :
    (List.foldl appendMessage c ms).messages = c.messages ++ ms := by
  induction ms generalizing c with
  | nil => simp
  | cons m rest ih =>
      rw [List.foldl_cons, ih (appendMessage c m)]
      simp [appendMessage]

/-- C8: a session stored at creation contains exactly one message, whose
role is "system"; each `appendMessage` (one `messages.push`) appends
exactly one message at the end, so after K appends the length is 1 + K
and the appended messages sit at indices 1..K in exactly call order. -/
theorem session_append_monotonic (conversationId : String) (req : StartRequest)
    (actualParticipants : Nat) (uid : Option String) (now : Int)
    (init ctx : String) (ms : List Message) :
    (newConversation conversationId req actualParticipants uid now init ctx).messages
      = [{ role := "system", content := init, timestamp := now }] ∧
    (List.foldl appendMessage
        (newConversation conversationId req actualParticipants uid now init ctx)
        ms).messages
      = { role := "system", content := init, timestamp := now } :: ms ∧
    List.length (List.foldl appendMessage
        (newConversation conversationId req actualParticipants uid now init ctx)
        ms).messages
      = 1 + List.length ms := by
  refine ⟨rfl, ?_, ?_⟩
  · rw [foldl_appendMessage_messages]
    rfl
  · rw [foldl_appendMessage_messages]
    simp [newConversation, Nat.add_comm]

-- ### C9: get is pure, continue changes only the message sequence

/-- C9: GET `/:id` is a pure lookup — it returns the store unchanged for
every id, so it neither refreshes `createdAt` nor touches any session —
and a successful continue turn changes only the `messages` sequence of
the addressed session: its `id`, `ownerId` (`userId`), `createdAt`,
`topic`, `difficultyLevel`, `focusAreas`, `participantCount` and
`includeSlang` are all unchanged, and the messages become the old ones
followed by the pushed user and system messages. -/
theorem get_pure_continue_frame (env : McpEnv) (now : Int) (user : User)
    (req : ContinueRequest) (store : Store) (c : Conversation) (anyId : String)
    (h1 : storeGet store req.conversationId = some c)
    (h2 : c.userId = user.id) :
    (getConversation store user anyId).2 = store ∧
    Option.map Conversation.id
        (storeGet (continueConversation env now user req store).store
          req.conversationId) = some c.id ∧
    Option.map Conversation.userId
        (storeGet (continueConversation env now user req store).store
          req.conversationId) = some c.userId ∧
    Option.map Conversation.createdAt
        (storeGet (continueConversation env now user req store).store
          req.conversationId) = some c.createdAt ∧
    Option.map Conversation.topic
        (storeGet (continueConversation env now user req store).store
          req.conversationId) = some c.topic ∧
    Option.map Conversation.difficultyLevel
        (storeGet (continueConversation env now user req store).store
          req.conversationId) = some c.difficultyLevel ∧
    Option.map Conversation.focusAreas
        (storeGet (continueConversation env now user req store).store
          req.conversationId) = some c.focusAreas ∧
    Option.map Conversation.participantCount
        (storeGet (continueConversation env now user req store).store
          req.conversationId) = some c.participantCount ∧
    Option.map Conversation.includeSlang
        (storeGet (continueConversation env now user req store).store
          req.conversationId) = some c.includeSlang ∧
    Option.map Conversation.messages
        (storeGet (continueConversation env now user req store).store
          req.conversationId)
      = some (c.messages ++
          [{ role := "user", content := req.userMessage, timestamp := now },
           { role := "system",
             content := (queryWithContext env
               (continuePrompt c
                 (messageHistoryFor user.tier
                   (c.messages ++
                     [{ role := "user", content := req.userMessage,
                        timestamp := now }]))
                 (promptExtrasFor user.tier req.includeCorrections
                   req.includeAlternatives))
               (continueOptions user.tier user.id c)).1,
             timestamp := now }]) := by
  have hbne : (c.userId != user.id) = false := by simp [h2]
  have hget : (getConversation store user anyId).2 = store := by
    unfold getConversation
    cases storeGet store anyId with
    | none => rfl
    | some conv =>
        dsimp only
        split <;> rfl
  have hstored : storeGet (continueConversation env now user req store).store
      req.conversationId
      = some (appendMessage
          (appendMessage c
            { role := "user", content := req.userMessage, timestamp := now })
          { role := "system",
            content := (queryWithContext env
              (continuePrompt c
                (messageHistoryFor user.tier
                  (appendMessage c
                    { role := "user", content := req.userMessage,
                      timestamp := now }).messages)
                (promptExtrasFor user.tier req.includeCorrections
                  req.includeAlternatives))
              (continueOptions user.tier user.id c)).1,
            timestamp := now }) := by
    simp only [continueConversation, h1, hbne, Bool.false_eq_true, if_false]
    exact storeGet_storeSet_self store req.conversationId _
  refine ⟨hget, ?_, ?_, ?_, ?_, ?_, ?_, ?_, ?_, ?_⟩ <;>
    · rw [hstored]
      simp [appendMessage]

/-- Witness for C9 at a concrete store, session and environment. -/
theorem get_pure_continue_frame_witness :
    ((getConversation
        [("cid", { id := "cid", topic := "food", difficultyLevel := "beginner",
                   participantCount := 1, includeSlang := false, focusAreas := [],
                   userId := some "u9", createdAt := some 7,
                   messages := [{ role := "system", content := "hi", timestamp := 7 }],
                   context := "ctx" })]
        { id := some "u9", tier := "basic" } "other").2
      = [("cid", { id := "cid", topic := "food", difficultyLevel := "beginner",
                   participantCount := 1, includeSlang := false, focusAreas := [],
                   userId := some "u9", createdAt := some 7,
                   messages := [{ role := "system", content := "hi", timestamp := 7 }],
                   context := "ctx" })]) ∧
    Option.map Conversation.createdAt
        (storeGet (continueConversation
          { getContext := fun _ => "CTX", complete := fun _ _ => "RESP" } 8
          { id := some "u9", tier := "basic" }
          { conversationId := "cid", userMessage := "Hola",
            includeCorrections := true, includeAlternatives := true }
          [("cid", { id := "cid", topic := "food", difficultyLevel := "beginner",
                     participantCount := 1, includeSlang := false, focusAreas := [],
                     userId := some "u9", createdAt := some 7,
                     messages := [{ role := "system", content := "hi", timestamp := 7 }],
                     context := "ctx" })]).store "cid")
      = some (some 7) := by
  have h := get_pure_continue_frame
    { getContext := fun _ => "CTX", complete := fun _ _ => "RESP" } 8
    { id := some "u9", tier := "basic" }
    { conversationId := "cid", userMessage := "Hola",
      includeCorrections := true, includeAlternatives := true }
    [("cid", { id := "cid", topic := "food", difficultyLevel := "beginner",
               participantCount := 1, includeSlang := false, focusAreas := [],
               userId := some "u9", createdAt := some 7,
               messages := [{ role := "system", content := "hi", timestamp := 7 }],
               context := "ctx" })]
    { id := "cid", topic := "food", difficultyLevel := "beginner",
      participantCount := 1, includeSlang := false, focusAreas := [],
      userId := some "u9", createdAt := some 7,
      messages := [{ role := "system", content := "hi", timestamp := 7 }],
      context := "ctx" }
    "other" rfl rfl
  exact ⟨h.1, h.2.2.2.1⟩

-- ### C10: the history list

theorem perm_insertByCreatedDesc (c : Conversation) (l : List Conversation) :
    List.Perm (insertByCreatedDesc c l) (c :: l) := by
  induction l with
  | nil => exact List.Perm.refl _
  | cons d rest ih =>
      by_cases h : createdKeyOf d < createdKeyOf c
      · simp [insertByCreatedDesc, h]
      · simp only [insertByCreatedDesc, h, if_false]
        exact (ih.cons d).trans (List.Perm.swap c d rest)

theorem perm_sortByCreatedDesc (l : List Conversation) :
    List.Perm (sortByCreatedDesc l) l := by
  induction l with
  | nil => exact List.Perm.refl _
  | cons c rest ih =>
      exact (perm_insertByCreatedDesc c (sortByCreatedDesc rest)).trans (ih.cons c)

theorem sorted_insertByCreatedDesc (c : Conversation) (l : List Conversation)
    (h : List.Sorted (fun a b => createdKeyOf b ≤ createdKeyOf a) l) :
    List.Sorted (fun a b => createdKeyOf b ≤ createdKeyOf a)
      (insertByCreatedDesc c l) := by
  induction l with
  | nil => simp [insertByCreatedDesc]
  | cons d rest ih =>
      rw [List.sorted_cons] at h
      by_cases hd : createdKeyOf d < createdKeyOf c
      · simp only [insertByCreatedDesc, hd, if_true]
        rw [List.sorted_cons]
        refine ⟨?_, List.sorted_cons.mpr h⟩
        intro b hb
        rcases List.mem_cons.mp hb with hb | hb
        · exact hb ▸ le_of_lt hd
        · exact le_trans (h.1 b hb) (le_of_lt hd)
      · simp only [insertByCreatedDesc, hd, if_false]
        rw [List.sorted_cons]
        refine ⟨?_, ih h.2⟩
        intro b hb
        rcases List.mem_cons.mp ((perm_insertByCreatedDesc c rest).mem_iff.mp hb)
          with hb | hb
        · exact hb ▸ le_of_not_lt hd
        · exact h.1 b hb

theorem sorted_sortByCreatedDesc (l : List Conversation) :
    List.Sorted (fun a b => createdKeyOf b ≤ createdKeyOf a)
      (sortByCreatedDesc l) := by
  induction l with
  | nil => simp [sortByCreatedDesc]
  | cons c rest ih => exact sorted_insertByCreatedDesc c _ ih

/-- C10: the history list for an owner is, up to the newest-first
reordering, exactly the multiset of stored conversations whose `userId`
equals the requested owner — no other owner's session ever appears — and
it is sorted newest-first by the `createdAt` sort key (which is the
creation time itself for every session with a parsable `createdAt`). -/
theorem userConversations_exact (store : Store) (uid : Option String) :
    List.Perm (userConversationsFor store uid)
      (List.filter (fun c => c.userId == uid) (storeValues store)) ∧
    (∀ c, c ∈ userConversationsFor store uid ↔
      (c ∈ storeValues store ∧ c.userId = uid)) ∧
    List.Sorted (fun a b => createdKeyOf b ≤ createdKeyOf a)
      (userConversationsFor store uid) ∧
    (∀ c t, c.createdAt = some t → createdKeyOf c = t) := by
  refine ⟨perm_sortByCreatedDesc _, ?_, sorted_sortByCreatedDesc _, ?_⟩
  · intro c
    unfold userConversationsFor
    rw [(perm_sortByCreatedDesc _).mem_iff, List.mem_filter]
    simp
  · intro c t ht
    simp [createdKeyOf, ht]

/-- Witness for C10 at a concrete two-owner store: only the caller's two
sessions appear, the intruder's does not, and the head conjuncts hold at
those conversations. -/
theorem userConversations_exact_witness :
    (({ id := "new", topic := "b", difficultyLevel := "beginner",
        participantCount := 1, includeSlang := false, focusAreas := [],
        userId := some "u1", createdAt := some 20, messages := [],
        context := "" } : Conversation) ∈
      userConversationsFor
        [("old", { id := "old", topic := "a", difficultyLevel := "beginner",
                   participantCount := 1, includeSlang := false, focusAreas := [],
                   userId := some "u1", createdAt := some 10, messages := [],
                   context := "" }),
         ("new", { id := "new", topic := "b", difficultyLevel := "beginner",
                   participantCount := 1, includeSlang := false, focusAreas := [],
                   userId := some "u1", createdAt := some 20, messages := [],
                   context := "" }),
         ("oth", { id := "oth", topic := "c", difficultyLevel := "beginner",
                   participantCount := 1, includeSlang := false, focusAreas := [],
                   userId := some "u2", createdAt := some 30, messages := [],
                   context := "" })] (some "u1")) ∧
    ¬ (({ id := "oth", topic := "c", difficultyLevel := "beginner",
          participantCount := 1, includeSlang := false, focusAreas := [],
          userId := some "u2", createdAt := some 30, messages := [],
          context := "" } : Conversation) ∈
      userConversationsFor
        [("old", { id := "old", topic := "a", difficultyLevel := "beginner",
                   participantCount := 1, includeSlang := false, focusAreas := [],
                   userId := some "u1", createdAt := some 10, messages := [],
                   context := "" }),
         ("new", { id := "new", topic := "b", difficultyLevel := "beginner",
                   participantCount := 1, includeSlang := false, focusAreas := [],
                   userId := some "u1", createdAt := some 20, messages := [],
                   context := "" }),
         ("oth", { id := "oth", topic := "c", difficultyLevel := "beginner",
                   participantCount := 1, includeSlang := false, focusAreas := [],
                   userId := some "u2", createdAt := some 30, messages := [],
                   context := "" })] (some "u1")) ∧
    List.Sorted (fun a b => createdKeyOf b ≤ createdKeyOf a)
      (userConversationsFor
        [("old", { id := "old", topic := "a", difficultyLevel := "beginner",
                   participantCount := 1, includeSlang := false, focusAreas := [],
                   userId := some "u1", createdAt := some 10, messages := [],
                   context := "" }),
         ("new", { id := "new", topic := "b", difficultyLevel := "beginner",
                   participantCount := 1, includeSlang := false, focusAreas := [],
                   userId := some "u1", createdAt := some 20, messages := [],
                   context := "" }),
         ("oth", { id := "oth", topic := "c", difficultyLevel := "beginner",
                   participantCount := 1, includeSlang := false, focusAreas := [],
                   userId := some "u2", createdAt := some 30, messages := [],
                   context := "" })] (some "u1")) := by
  have h := userConversations_exact
    [("old", { id := "old", topic := "a", difficultyLevel := "beginner",
               participantCount := 1, includeSlang := false, focusAreas := [],
               userId := some "u1", createdAt := some 10, messages := [],
               context := "" }),
     ("new", { id := "new", topic := "b", difficultyLevel := "beginner",
               participantCount := 1, includeSlang := false, focusAreas := [],
               userId := some "u1", createdAt := some 20, messages := [],
               context := "" }),
     ("oth", { id := "oth", topic := "c", difficultyLevel := "beginner",
               participantCount := 1, includeSlang := false, focusAreas := [],
               userId := some "u2", createdAt := some 30, messages := [],
               context := "" })] (some "u1")
  refine ⟨(h.2.1 _).mpr (by constructor <;> simp [storeValues]), ?_, h.2.2.1⟩
  intro hmem
  have := ((h.2.1 _).mp hmem).2
  simp at this

-- ### C7: conversation-id generation

/-- Numeric value of a decimal digit character. -/
def digitVal (c : Char) : Nat := c.toNat - 48

/-- Decimal value of a most-significant-first digit string. -/
def parseDigits (l : List Char) : Nat :=
  List.foldl (fun a c => 10 * a + digitVal c) 0 l

theorem digitChar_isDigit (m : Nat) (h : m < 10) :
    (Nat.digitChar m).isDigit = true := by
  interval_cases m <;> decide

theorem digitVal_digitChar (m : Nat) (h : m < 10) :
    digitVal (Nat.digitChar m) = m := by
  interval_cases m <;> decide

theorem toDigitsCore_append (b : Nat) :
    ∀ (fuel n : Nat) (ds : List Char),
      Nat.toDigitsCore b fuel n ds = Nat.toDigitsCore b fuel n [] ++ ds := by
  intro fuel
  induction fuel with
  | zero => intro n ds; simp [Nat.toDigitsCore]
  | succ f ih =>
      intro n ds
      simp only [Nat.toDigitsCore]
      by_cases h : n / b = 0
      · simp [h]
      · simp only [h, if_false]
        rw [ih (n / b) (Nat.digitChar (n % b) :: ds),
            ih (n / b) [Nat.digitChar (n % b)]]
        simp

theorem toDigitsCore_isDigit :
    ∀ (fuel n : Nat) (ds : List Char),
      (∀ c ∈ ds, c.isDigit = true) →
      ∀ c ∈ Nat.toDigitsCore 10 fuel n ds, c.isDigit = true := by
  intro fuel
  induction fuel with
  | zero => intro n ds hds; simpa [Nat.toDigitsCore] using hds
  | succ f ih =>
      intro n ds hds
      simp only [Nat.toDigitsCore]
      have hdigit : (Nat.digitChar (n % 10)).isDigit = true :=
        digitChar_isDigit _ (Nat.mod_lt n (by decide))
      have hcons : ∀ c ∈ Nat.digitChar (n % 10) :: ds, c.isDigit = true := by
        intro c hc
        rcases List.mem_cons.mp hc with hc | hc
        · exact hc ▸ hdigit
        · exact hds c hc
      by_cases h : n / 10 = 0
      · simpa [h] using hcons
      · simpa [h] using ih (n / 10) _ hcons

theorem parseDigits_append_singleton (xs : List Char) (c : Char) :
    parseDigits (xs ++ [c]) = 10 * parseDigits xs + digitVal c := by
  simp [parseDigits, List.foldl_append]

theorem parseDigits_toDigitsCore :
    ∀ (fuel n : Nat), n < fuel →
      parseDigits (Nat.toDigitsCore 10 fuel n []) = n := by
  intro fuel
  induction fuel with
  | zero => intro n h; omega
  | succ f ih =>
      intro n h
      simp only [Nat.toDigitsCore]
      by_cases h0 : n / 10 = 0
      · have hn : n < 10 := by omega
        simp only [h0, if_true]
        have : parseDigits [Nat.digitChar (n % 10)] = digitVal (Nat.digitChar (n % 10)) := by
          simp [parseDigits]
        rw [this, digitVal_digitChar _ (Nat.mod_lt n (by decide))]
        exact Nat.mod_eq_of_lt hn
      · have hn10 : 10 ≤ n := by
          by_contra hlt
          exact h0 (Nat.div_eq_of_lt (by omega))
        have hlt : n / 10 < f := by
          have h1 : n / 10 < n := Nat.div_lt_self (by omega) (by decide)
          omega
        simp only [h0, if_false]
        rw [toDigitsCore_append 10 f (n / 10) [Nat.digitChar (n % 10)],
            parseDigits_append_singleton, ih (n / 10) hlt,
            digitVal_digitChar _ (Nat.mod_lt n (by decide))]
        omega

theorem repr_data_eq (n : Nat) : (Nat.repr n).data = Nat.toDigits 10 n := rfl

theorem repr_data_isDigit (n : Nat) :
    ∀ c ∈ (Nat.repr n).data, c.isDigit = true := by
  rw [repr_data_eq]
  exact toDigitsCore_isDigit (n + 1) n [] (by intro c hc; cases hc)

theorem repr_injective (m n : Nat) (h : Nat.repr m = Nat.repr n) : m = n := by
  have hd : Nat.toDigits 10 m = Nat.toDigits 10 n := by
    rw [← repr_data_eq, ← repr_data_eq, h]
  have hm := parseDigits_toDigitsCore (m + 1) m (Nat.lt_succ_self m)
  have hn := parseDigits_toDigitsCore (n + 1) n (Nat.lt_succ_self n)
  rw [show Nat.toDigitsCore 10 (m + 1) m [] = Nat.toDigits 10 m from rfl] at hm
  rw [show Nat.toDigitsCore 10 (n + 1) n [] = Nat.toDigits 10 n from rfl] at hn
  rw [← hm, ← hn, hd]

theorem digits_underscore_split :
    ∀ (l1 l2 r1 r2 : List Char),
      (∀ c ∈ l1, c.isDigit = true) → (∀ c ∈ l2, c.isDigit = true) →
      l1 ++ '_' :: r1 = l2 ++ '_' :: r2 → l1 = l2 ∧ r1 = r2 := by
  intro l1
  induction l1 with
  | nil =>
      intro l2 r1 r2 _ hl2 heq
      cases l2 with
      | nil => simpa using heq
      | cons d l2' =>
          exfalso
          have hd : d = '_' := by
            have := congrArg (fun l => l.head?) heq
            simpa using this.symm
          have := hl2 d (List.mem_cons_self d l2')
          rw [hd] at this
          exact absurd this (by decide)
  | cons c l1' ih =>
      intro l2 r1 r2 hl1 hl2 heq
      cases l2 with
      | nil =>
          exfalso
          have hc : c = '_' := by
            have := congrArg (fun l => l.head?) heq
            simpa using this
          have := hl1 c (List.mem_cons_self c l1')
          rw [hc] at this
          exact absurd this (by decide)
      | cons d l2' =>
          have hcd : c = d ∧ l1' ++ '_' :: r1 = l2' ++ '_' :: r2 := by
            have h1 := congrArg (fun l => l.head?) heq
            have h2 := congrArg (fun l => l.tail) heq
            simp at h1 h2
            exact ⟨h1, h2⟩
          obtain ⟨rest1, rest2⟩ := ih l2' r1 r2
            (fun x hx => hl1 x (List.mem_cons_of_mem c hx))
            (fun x hx => hl2 x (List.mem_cons_of_mem d hx)) hcd.2
          exact ⟨by rw [hcd.1, rest1], rest2⟩

/-- Injectivity of the id template: two generated ids coincide exactly
when both the millisecond timestamp and the random suffix coincide (the
decimal timestamp part contains only digit characters, so the first
underscore after the conv prefix splits the id unambiguously). -/
theorem mkConversationId_inj (t1 t2 : Nat) (r1 r2 : String)
    (h : mkConversationId t1 r1 = mkConversationId t2 r2) :
    t1 = t2 ∧ r1 = r2 := by
  have hu : "_".data = ['_'] := rfl
  have hd : "conv_".data ++ ((Nat.repr t1).data ++ ('_' :: r1.data))
      = "conv_".data ++ ((Nat.repr t2).data ++ ('_' :: r2.data)) := by
    have h1 := congrArg String.data h
    simpa [mkConversationId, String.data_append, hu, List.append_assoc] using h1
  have hsplit := digits_underscore_split (Nat.repr t1).data (Nat.repr t2).data
    r1.data r2.data (repr_data_isDigit t1) (repr_data_isDigit t2)
    (List.append_cancel_left hd)
  exact ⟨repr_injective t1 t2 (String.ext hsplit.1), String.ext hsplit.2⟩

/-- Counterexample to C7 as stated: the generator is a deterministic
function of the millisecond clock and the random suffix, so two
createSession calls that fall in the same millisecond and draw the same
random suffix return the very same id — the returned ids of N calls are
not unconditionally pairwise distinct. -/
theorem conversation_ids_can_collide :
    mkConversationId 0 "aaaaaaaaa" = mkConversationId 0 "aaaaaaaaa" ∧
    ¬ List.Pairwise (fun a b => a ≠ b)
        (List.map (fun p : Nat × String => mkConversationId p.1 p.2)
          [(0, "aaaaaaaaa"), (0, "aaaaaaaaa")]) := by
  refine ⟨rfl, ?_⟩
  intro hp
  simp only [List.map] at hp
  exact (List.pairwise_cons.mp hp).1 _ (List.mem_singleton_self _) rfl

/-- C7 as amended: the ids returned by any sequence of createSession
calls are pairwise distinct whenever the (timestamp, random-suffix) pairs
the calls draw are pairwise distinct — the generator is injective in that
pair — so an id (including one whose session was deleted) can only recur
if the clock and the random draw both repeat. -/
theorem conversation_ids_distinct (calls : List (Nat × String))
    (h : List.Pairwise (fun p q => p ≠ q) calls) :
    List.Pairwise (fun a b => a ≠ b)
      (List.map (fun p : Nat × String => mkConversationId p.1 p.2) calls) := by
  rw [List.pairwise_map]
  refine h.imp ?_
  intro p q hpq heq
  obtain ⟨h1, h2⟩ := mkConversationId_inj p.1 q.1 p.2 q.2 heq
  exact hpq (Prod.ext h1 h2)

/-- Witness for the amended C7: two calls in different milliseconds (even
with the same random suffix) yield distinct ids. -/
theorem conversation_ids_distinct_witness :
    List.Pairwise (fun a b => a ≠ b)
      (List.map (fun p : Nat × String => mkConversationId p.1 p.2)
        [(0, "aaaaaaaaa"), (1, "aaaaaaaaa")]) := by
  exact conversation_ids_distinct [(0, "aaaaaaaaa"), (1, "aaaaaaaaa")] (by decide)
